import Mathlib

/-!
Shallow embedding of the deployment-dashboard data-orchestration layer
(`src/utils/github.ts`): the API client registry, the per-user TTL cache,
the repository lister, the deployment aggregator, the environment lister,
and the error taxonomy.  Timestamps (`Date.now()` values and the values of
`new Date(s).getTime()`) are modelled as `Int`; the wall clock is passed
explicitly as a `now` argument.  Upstream HTTP responses are passed in as
explicit data (an `Except ApiError _` per request), so each exported
operation becomes a pure function of its inputs and the mutable module
state (`OpState`).
-/

namespace GithubDashboard

/-- A character-list prefix test, used to embed `String.prototype.includes`. -/
def listStartsWith : List Char → List Char → Bool
  | [], _ => true
  | _ :: _, [] => false
  | a :: as, b :: bs => a = b && listStartsWith as bs

/-- Substring occurrence over character lists. -/
def listContainsSub (pat : List Char) : List Char → Bool
  | [] => listStartsWith pat []
  | c :: rest => listStartsWith pat (c :: rest) || listContainsSub pat rest

/-- Embeds JavaScript `s.includes(pat)`: does `pat` occur as a contiguous
substring of `s`? -/
def strContainsSub (s pat : String) : Bool :=
  listContainsSub pat.data s.data

/-- Embeds JavaScript `x || d` for a possibly-absent string `x`: an absent
value and the empty string (both falsy) fall through to the default. -/
def jsOrElse (x : Option String) (d : String) : String :=
  match x with
  | none => d
  | some s => if s = "" then d else s

/-- An error coming back from the upstream API.  `status` is `some s` when
the thrown value passes `error instanceof Error && 'status' in error` with
numeric status `s`, and `none` otherwise. -/
structure ApiError where
  status : Option Int
  message : String
deriving DecidableEq, Repr

/-- The error taxonomy surfaced by the module: `uninitialized` is the
`"Octokit not initialized for this user"` error from `ensureOctokit`,
`authRequired` is `Error('AUTH_REQUIRED')`, `rateLimitExceeded` is
`Error('RATE_LIMIT_EXCEEDED')`, and `upstream e` is the original error `e`
rethrown unchanged. -/
inductive DashboardError where
  | uninitialized
  | authRequired
  | rateLimitExceeded
  | upstream (e : ApiError)
deriving DecidableEq, Repr

/-- One cache slot: `{ data, timestamp }` as stored by `setCachedData`. -/
structure CacheEntry (α : Type) where
  data : α
  timestamp : Int
deriving DecidableEq, Repr

/-- The per-user cache, keyed by `(userId, key)`.  The source keeps a nested
object `cache[userId][key]`; an association list looked up on both
components at once is an equivalent representation, with a later `set`
shadowing earlier entries for the same pair. -/
def Cache (α : Type) : Type := List (String × String × CacheEntry α)

/-- `CACHE_TTL = 5 * 60 * 1000` milliseconds. -/
def CACHE_TTL : Int := 5 * 60 * 1000

/-- Raw lookup of the stored entry for `(userId, key)`, ignoring expiry. -/
def lookupEntry {α : Type} : Cache α → String → String → Option (CacheEntry α)
  | [], _, _ => none
  | (u, k, e) :: rest, userId, key =>
    if u = userId ∧ k = key then some e else lookupEntry rest userId key

/-- Embeds `getCachedData`: a hit only when an entry exists and
`now - entry.timestamp < CACHE_TTL`; otherwise `null` (here `none`).  The
read never mutates the cache. -/
def getCachedData {α : Type} (c : Cache α) (userId key : String) (now : Int) : Option α :=
  match lookupEntry c userId key with
  | some cached => if now - cached.timestamp < CACHE_TTL then some cached.data else none
  | none => none

/-- Embeds `setCachedData`: store `{ data, timestamp: Date.now() }` under
`(userId, key)`, superseding any previous entry for that pair. -/
def setCachedData {α : Type} (c : Cache α) (userId key : String) (data : α) (now : Int) : Cache α :=
  (userId, key, ⟨data, now⟩) :: c

/-- A repository option as projected for the selector. -/
structure RepoOption where
  value : String
  label : String
  owner : String
  isOrg : Bool
deriving DecidableEq, Repr

/-- The `creator` sub-object of a deployment. -/
structure Creator where
  login : String
  avatar_url : String
deriving DecidableEq, Repr

/-- An assembled deployment record, as returned by `getDeployments`. -/
structure Deployment where
  id : Int
  sha : String
  ref : String
  task : String
  environment : String
  description : String
  creator : Option Creator
  created_at : String
  updated_at : String
  statuses_url : String
  repository_url : String
  status : String
  releaseTag : String
deriving DecidableEq, Repr

/-- One `{ environment, deployments }` pair of the grouped result. -/
structure GroupedDeployment where
  environment : String
  deployments : List Deployment
deriving DecidableEq, Repr

/-- A deployment environment as returned by `getEnvironments`. -/
structure Environment where
  id : Int
  name : String
deriving DecidableEq, Repr

/-- The module-level mutable state: the `octokitInstances` registry (the set
of user ids holding a client), the `localStorage` token entries, and the
three (disjointly-keyed) regions of the in-memory `cache` object, split here
by payload type. -/
structure OpState where
  registry : List String
  localTokens : List (String × String)
  reposCache : Cache (List RepoOption)
  deploymentsCache : Cache (List GroupedDeployment)
  environmentsCache : Cache (List Environment)

/-- Embeds `initializeOctokit`: create or replace the client bound to the
user id. -/
def initializeOctokit (userId accessToken : String) (st : OpState) : OpState :=
  { st with
    registry := userId :: st.registry.filter (fun u => u ≠ userId)
    localTokens := ("github_token-" ++ userId, accessToken) :: st.localTokens }

/-- Embeds `ensureOctokit`: fail with the uninitialized error when no client
is registered for the user id. -/
def ensureOctokit (st : OpState) (userId : String) : Except DashboardError Unit :=
  if userId ∈ st.registry then .ok () else .error .uninitialized

/-- Embeds `handleApiError`: on HTTP 401 remove the stored token and the
client instance and raise `AUTH_REQUIRED`; on HTTP 403 whose message
includes `'API rate limit exceeded'` raise `RATE_LIMIT_EXCEEDED`; otherwise
rethrow the original error. -/
def handleApiError (error : ApiError) (userId : String) (st : OpState) :
    DashboardError × OpState :=
  match error.status with
  | some s =>
    if s = 401 then
      (.authRequired,
        { st with
          localTokens := st.localTokens.filter (fun p => p.1 ≠ "github_token-" ++ userId)
          registry := st.registry.filter (fun u => u ≠ userId) })
    else if s = 403 ∧ strContainsSub error.message "API rate limit exceeded" then
      (.rateLimitExceeded, st)
    else
      (.upstream error, st)
  | none => (.upstream error, st)

/-- A raw repository record, as far as `getRepositories` projects it:
`full_name`, `owner.login` and `owner.type`. -/
structure RawRepo where
  full_name : String
  owner_login : String
  owner_type : String
deriving DecidableEq, Repr

/-- The projection performed on each page entry of
`repos.listForAuthenticatedUser`. -/
def projectRepo (r : RawRepo) : RepoOption :=
  { value := r.full_name
    label := r.full_name
    owner := r.owner_login
    isOrg := r.owner_type = "Organization" }

/-- A raw deployment record, as delivered by `repos.listDeployments`.
`description` and `creator` may be absent; the timestamp fields are the ISO
strings of the API. -/
structure RawDeployment where
  id : Int
  sha : String
  ref : String
  task : String
  environment : String
  description : Option String
  creator : Option Creator
  created_at : String
  updated_at : String
  statuses_url : String
  repository_url : String
deriving DecidableEq, Repr

/-- One entry of a `listDeploymentStatuses` response. -/
structure StatusEntry where
  state : String
deriving DecidableEq, Repr

/-- A `getReleaseByTag` response body. -/
structure Release where
  tag_name : String
deriving DecidableEq, Repr

/-- The upstream data consulted for one deployment: the deployment record
itself, the outcome of its `listDeploymentStatuses` call and the outcome of
its `getReleaseByTag` call (the latter is the one wrapped in
`.catch(() => null)` by the source). -/
structure DeploymentFetch where
  deployment : RawDeployment
  statuses : Except ApiError (List StatusEntry)
  release : Except ApiError Release

/-- Embeds the per-deployment assembly inside `getDeployments`: a failure of
the statuses call rejects the whole `Promise.all`, a failure of the release
call is caught and becomes `null`; the record is then built with
`status = statusResponse.data[0]?.state || 'unknown'` and
`releaseTag = releaseResponse?.data.tag_name || ''`. -/
def assembleDeployment (f : DeploymentFetch) : Except ApiError Deployment :=
  match f.statuses with
  | .error e => .error e
  | .ok statusData =>
    .ok
      { id := f.deployment.id
        sha := f.deployment.sha
        ref := f.deployment.ref
        task := f.deployment.task
        environment := f.deployment.environment
        description := jsOrElse f.deployment.description ""
        creator := f.deployment.creator
        created_at := f.deployment.created_at
        updated_at := f.deployment.updated_at
        statuses_url := f.deployment.statuses_url
        repository_url := f.deployment.repository_url
        status := jsOrElse (statusData.head?.map StatusEntry.state) "unknown"
        releaseTag :=
          jsOrElse
            (match f.release with
             | .ok r => some r.tag_name
             | .error _ => none) "" }

/-- Embeds `await Promise.all(deploymentPromises)` for one page: all
assemblies in page order, rejecting with the first failure. -/
def assemblePage : List DeploymentFetch → Except ApiError (List Deployment)
  | [] => .ok []
  | f :: fs =>
    match assembleDeployment f, assemblePage fs with
    | .ok d, .ok ds => .ok (d :: ds)
    | .error e, _ => .error e
    | .ok _, .error e => .error e

/-- Embeds the pagination loop of `getDeployments`: accumulate the assembled
deployments of every page, in page order. -/
def assemblePages : List (List DeploymentFetch) → Except ApiError (List Deployment)
  | [] => .ok []
  | page :: rest =>
    match assemblePage page, assemblePages rest with
    | .ok ds, .ok more => .ok (ds ++ more)
    | .error e, _ => .error e
    | .ok _, .error e => .error e

/-- Embeds one step of the grouping `reduce`: push the deployment onto its
environment's list, creating the (insertion-ordered) property if absent. -/
def addToGroup (d : Deployment) : List (String × List Deployment) → List (String × List Deployment)
  | [] => [(d.environment, [d])]
  | (k, ds) :: rest =>
    if k = d.environment then (k, ds ++ [d]) :: rest
    else (k, ds) :: addToGroup d rest

/-- Embeds `deployments.reduce(..., {})`: the object's properties, in the
order they were created. -/
def groupByEnvironment (ds : List Deployment) : List (String × List Deployment) :=
  ds.foldl (fun acc d => addToGroup d acc) []

/-- Accumulator-style decimal parse of a character list: `some` of the value
when every character is a digit, `none` otherwise. -/
def parseDigitsAux (acc : Nat) : List Char → Option Nat
  | [] => some acc
  | c :: cs => if c.isDigit then parseDigitsAux (acc * 10 + (c.toNat - 48)) cs else none

/-- The numeric reading of a string: `some n` when the string is a nonempty
run of decimal digits. -/
def strToNat? (s : String) : Option Nat :=
  match s.data with
  | [] => none
  | c :: cs => parseDigitsAux 0 (c :: cs)

/-- Is `s` a canonical ECMAScript array index, i.e. the decimal string of
some `n` with `0 ≤ n < 2^32 - 1`?  Such property keys are enumerated before
all other string keys, in ascending numeric order. -/
def isArrayIndex (s : String) : Bool :=
  match strToNat? s with
  | some n => decide (toString n = s) && decide (n < 4294967295)
  | none => false

/-- The numeric value of an array-index key (`0` for non-numeric strings,
which never reach the comparisons that use it). -/
def keyNum (s : String) : Nat :=
  (strToNat? s).getD 0

/-- Insert a key into a list of keys, ascending by numeric value. -/
def insertKeyByNum (s : String) : List String → List String
  | [] => [s]
  | t :: ts => if keyNum s < keyNum t then s :: t :: ts else t :: insertKeyByNum s ts

/-- Sort keys ascending by numeric value. -/
def sortKeysByNum : List String → List String
  | [] => []
  | s :: ss => insertKeyByNum s (sortKeysByNum ss)

/-- The ECMAScript own-property key order of an object whose properties were
created in the order `ks`: array-index keys first, ascending numerically,
then the remaining keys in insertion order. -/
def jsObjectKeys (ks : List String) : List String :=
  sortKeysByNum (ks.filter (fun k => isArrayIndex k)) ++
    ks.filter (fun k => !isArrayIndex k)

/-- Insert a grouped entry into a list of entries, ascending by the numeric
value of its key. -/
def insertEntryByNum (p : String × List Deployment) :
    List (String × List Deployment) → List (String × List Deployment)
  | [] => [p]
  | q :: qs => if keyNum p.1 < keyNum q.1 then p :: q :: qs else q :: insertEntryByNum p qs

/-- Sort grouped entries ascending by the numeric value of their keys. -/
def sortEntriesByNum :
    List (String × List Deployment) → List (String × List Deployment)
  | [] => []
  | p :: ps => insertEntryByNum p (sortEntriesByNum ps)

/-- Embeds `Object.entries(groupedDeployments)` (and the key order also used
by `Object.values`): array-index-keyed properties first, ascending
numerically, then the rest in property-creation order.  The keys of
`groupByEnvironment` are distinct, so filtering and reordering the
association pairs coincides with looking each ordered key up. -/
def objectEntries (g : List (String × List Deployment)) :
    List (String × List Deployment) :=
  sortEntriesByNum (g.filter (fun p => isArrayIndex p.1)) ++
    g.filter (fun p => !isArrayIndex p.1)

/-- Insert a deployment into a list sorted non-increasingly by
`getTime (created_at)`, after any already-placed deployment of equal or
larger key — the placement of the stable descending comparator
`(a, b) => getTime(b.created_at) - getTime(a.created_at)`. -/
def insertByCreatedDesc (getTime : String → Int) (d : Deployment) :
    List Deployment → List Deployment
  | [] => [d]
  | e :: es =>
    if getTime e.created_at ≤ getTime d.created_at then d :: e :: es
    else e :: insertByCreatedDesc getTime d es

/-- Embeds the in-place `envDeployments.sort(...)`: a stable sort,
descending by `new Date(created_at).getTime()` (the parse is abstracted as
`getTime`). -/
def sortByCreatedDesc (getTime : String → Int) : List Deployment → List Deployment
  | [] => []
  | d :: ds => insertByCreatedDesc getTime d (sortByCreatedDesc getTime ds)

/-- The group-and-sort tail of `getDeployments`: group the flattened
deployments by environment, sort every group descending by creation time,
and read the `{environment, deployments}` pairs off in the object's
property order. -/
def groupAndSort (getTime : String → Int) (ds : List Deployment) :
    List GroupedDeployment :=
  (objectEntries (groupByEnvironment ds)).map
    (fun p => { environment := p.1, deployments := sortByCreatedDesc getTime p.2 })

/-- The full aggregation of `getDeployments` past the cache check: paginate
(`pagesE` is the outcome of the pagination itself), assemble every
deployment, then group and sort. -/
def getDeploymentsResult (getTime : String → Int)
    (pagesE : Except ApiError (List (List DeploymentFetch))) :
    Except ApiError (List GroupedDeployment) :=
  match pagesE with
  | .error e => .error e
  | .ok pages =>
    match assemblePages pages with
    | .error e => .error e
    | .ok ds => .ok (groupAndSort getTime ds)

/-- Embeds `getRepositories`: ensure a client, consult the cache under
`'repositories'`, on a miss flatten all pages of
`repos.listForAuthenticatedUser` through `projectRepo` and cache the
result; an upstream failure goes through `handleApiError`. -/
def getRepositories (st : OpState) (now : Int) (userId : String)
    (upstream : Except ApiError (List (List RawRepo))) :
    Except DashboardError (List RepoOption) × OpState :=
  match ensureOctokit st userId with
  | .error err => (.error err, st)
  | .ok _ =>
    match getCachedData st.reposCache userId "repositories" now with
    | some cached => (.ok cached, st)
    | none =>
      match upstream with
      | .ok pages =>
        let repos := (List.flatten pages).map projectRepo
        (.ok repos,
          { st with reposCache := setCachedData st.reposCache userId "repositories" repos now })
      | .error e =>
        let r := handleApiError e userId st
        (.error r.1, r.2)

/-- Embeds `getDeployments`: ensure a client, consult the cache under
`'deployments-' + full_name`, on a miss run the aggregation and cache the
grouped result; an upstream failure goes through `handleApiError`. -/
def getDeployments (st : OpState) (now : Int) (getTime : String → Int)
    (userId full_name : String)
    (pagesE : Except ApiError (List (List DeploymentFetch))) :
    Except DashboardError (List GroupedDeployment) × OpState :=
  match ensureOctokit st userId with
  | .error err => (.error err, st)
  | .ok _ =>
    let cacheKey := "deployments-" ++ full_name
    match getCachedData st.deploymentsCache userId cacheKey now with
    | some cached => (.ok cached, st)
    | none =>
      match getDeploymentsResult getTime pagesE with
      | .ok result =>
        (.ok result,
          { st with
            deploymentsCache := setCachedData st.deploymentsCache userId cacheKey result now })
      | .error e =>
        let r := handleApiError e userId st
        (.error r.1, r.2)

/-- A `repos.getAllEnvironments` response body; the `environments` field may
be absent. -/
structure EnvironmentsData where
  environments : Option (List Environment)
deriving DecidableEq, Repr

/-- Embeds `getEnvironments`: ensure a client, consult the cache under
`'environments-' + full_name`, on a miss take `data.environments || []`
and cache it; an upstream failure goes through `handleApiError`. -/
def getEnvironments (st : OpState) (now : Int) (userId full_name : String)
    (upstream : Except ApiError EnvironmentsData) :
    Except DashboardError (List Environment) × OpState :=
  match ensureOctokit st userId with
  | .error err => (.error err, st)
  | .ok _ =>
    let cacheKey := "environments-" ++ full_name
    match getCachedData st.environmentsCache userId cacheKey now with
    | some cached => (.ok cached, st)
    | none =>
      match upstream with
      | .ok data =>
        let environments := data.environments.getD []
        (.ok environments,
          { st with
            environmentsCache :=
              setCachedData st.environmentsCache userId cacheKey environments now })
      | .error e =>
        let r := handleApiError e userId st
        (.error r.1, r.2)

/-- The environments of a list of fetches, deduplicated to their first
appearance, scanning left to right with an accumulator of already-seen
names. -/
def firstAppearances (seen : List String) : List String → List String
  | [] => []
  | e :: es =>
    if e ∈ seen then firstAppearances seen es
    else e :: firstAppearances (e :: seen) es

/-- A decidable check that a deployment list is non-increasing in
`getTime (created_at)` between adjacent elements. -/
def headLeOf (getTime : String → Int) (d : Deployment) : List Deployment → Bool
  | [] => true
  | e :: _ => decide (getTime e.created_at ≤ getTime d.created_at)

/-- The whole-list sortedness check: every adjacent pair is non-increasing
in `getTime (created_at)`. -/
def isSortedByCreatedDesc (getTime : String → Int) : List Deployment → Bool
  | [] => true
  | d :: rest => headLeOf getTime d rest && isSortedByCreatedDesc getTime rest

/-- Every group of a grouped result is internally sorted, newest first. -/
def allGroupsSortedDesc (getTime : String → Int) (res : List GroupedDeployment) : Bool :=
  res.all (fun g => isSortedByCreatedDesc getTime g.deployments)

/-- A small concrete `getTime`: `new Date(s).getTime()` restricted to the
decimal-literal timestamps used by the concrete examples below. -/
def exGt : String → Int := fun s => (((strToNat? s).getD 0 : Nat) : Int)

/-- A concrete upstream 404, as thrown by a failed `getReleaseByTag`. -/
def exErr404 : ApiError := { status := some 404, message := "Not Found" }

/-- A concrete upstream 401. -/
def exErr401 : ApiError := { status := some 401, message := "Bad credentials" }

/-- A concrete upstream 403 carrying the rate-limit message. -/
def exErr403 : ApiError :=
  { status := some 403, message := "API rate limit exceeded for 1.2.3.4" }

/-- A concrete upstream 500. -/
def exErr500 : ApiError := { status := some 500, message := "Server Error" }

/-- A concrete raw deployment. -/
def exRawDeployment (i : Int) (env created : String) : RawDeployment :=
  { id := i
    sha := "sha"
    ref := "v1"
    task := "deploy"
    environment := env
    description := none
    creator := none
    created_at := created
    updated_at := created
    statuses_url := "su"
    repository_url := "ru" }

/-- Deployment 1 of the two-deployment `prod` scenario: older, successful,
no matching release. -/
def exFetchProd1 : DeploymentFetch :=
  { deployment := exRawDeployment 1 "prod" "1"
    statuses := .ok [⟨"success"⟩]
    release := .error exErr404 }

/-- Deployment 2 of the two-deployment `prod` scenario: newer, successful,
no matching release. -/
def exFetchProd2 : DeploymentFetch :=
  { deployment := exRawDeployment 2 "prod" "2"
    statuses := .ok [⟨"success"⟩]
    release := .error exErr404 }

/-- The single page of the `prod` scenario. -/
def exPagesProd : List (List DeploymentFetch) := [[exFetchProd1, exFetchProd2]]

/-- The assembled form of `exFetchProd1`. -/
def exDeployProd1 : Deployment :=
  { id := 1
    sha := "sha"
    ref := "v1"
    task := "deploy"
    environment := "prod"
    description := ""
    creator := none
    created_at := "1"
    updated_at := "1"
    statuses_url := "su"
    repository_url := "ru"
    status := "success"
    releaseTag := "" }

/-- The assembled form of `exFetchProd2`. -/
def exDeployProd2 : Deployment :=
  { exDeployProd1 with id := 2, created_at := "2", updated_at := "2" }

/-- The grouped result of the `prod` scenario: one group, newest first. -/
def exResProd : List GroupedDeployment :=
  [{ environment := "prod", deployments := [exDeployProd2, exDeployProd1] }]

/-- A fetch whose status history is empty and whose release lookup
succeeds. -/
def exFetchNoStatus : DeploymentFetch :=
  { deployment := exRawDeployment 3 "dev" "3"
    statuses := .ok []
    release := .ok ⟨"v1.2.3"⟩ }

/-- The assembled form of `exFetchNoStatus`. -/
def exDeployNoStatus : Deployment :=
  { id := 3
    sha := "sha"
    ref := "v1"
    task := "deploy"
    environment := "dev"
    description := ""
    creator := none
    created_at := "3"
    updated_at := "3"
    statuses_url := "su"
    repository_url := "ru"
    status := "unknown"
    releaseTag := "v1.2.3" }

/-- A fetch in environment `"b"`, appearing first in page order. -/
def exFetchEnvB : DeploymentFetch :=
  { deployment := exRawDeployment 1 "b" "1"
    statuses := .ok [⟨"success"⟩]
    release := .error exErr404 }

/-- A fetch in environment `"0"` (a canonical array-index name), appearing
second in page order. -/
def exFetchEnv0 : DeploymentFetch :=
  { deployment := exRawDeployment 2 "0" "2"
    statuses := .ok [⟨"success"⟩]
    release := .error exErr404 }

/-- The single page of the array-index-environment scenario. -/
def exPagesIdx : List (List DeploymentFetch) := [[exFetchEnvB, exFetchEnv0]]

/-- The assembled form of `exFetchEnvB`. -/
def exDeployEnvB : Deployment :=
  { exDeployProd1 with environment := "b" }

/-- The assembled form of `exFetchEnv0`. -/
def exDeployEnv0 : Deployment :=
  { exDeployProd1 with id := 2, environment := "0", created_at := "2", updated_at := "2" }

/-- What the code actually returns for `exPagesIdx`: the `"0"` group is
listed before the `"b"` group, although `"b"` appeared first. -/
def exResIdx : List GroupedDeployment :=
  [{ environment := "0", deployments := [exDeployEnv0] },
   { environment := "b", deployments := [exDeployEnvB] }]

/-- A state holding a client and a stored token for user `"alice"` and
empty caches. -/
def exStateInit : OpState :=
  { registry := ["alice"]
    localTokens := [("github_token-alice", "tok")]
    reposCache := []
    deploymentsCache := []
    environmentsCache := [] }

/-- A concrete repository option for cache contents. -/
def exRepoOption : RepoOption :=
  { value := "acme/widgets", label := "acme/widgets", owner := "acme", isOrg := true }

/-- A state with no client for `"alice"` but fresh (timestamp `0`) cache
entries for every key a call for `"acme/widgets"` would consult. -/
def exStateNoClient : OpState :=
  { registry := []
    localTokens := []
    reposCache := [("alice", "repositories", ⟨[exRepoOption], 0⟩)]
    deploymentsCache := [("alice", "deployments-acme/widgets", ⟨exResProd, 0⟩)]
    environmentsCache := [("alice", "environments-acme/widgets", ⟨[⟨7, "prod"⟩], 0⟩)] }

/-! Theorems.  General-purpose lemmas come first, then one theorem (plus
witness or counterexample) per specification claim. -/

/-- C4: a `set` immediately followed by a `get` on the same `(session, key)`
hits; after the TTL has elapsed the same `get` misses; the expired entry is
still physically present (a `get` removes nothing), and a later `set`
supersedes it. -/
theorem c4_cache_ttl {α : Type} (c : Cache α) (userId key : String) (v w : α)
    (t now : Int) (hexp : CACHE_TTL ≤ now - t) :
    getCachedData (setCachedData c userId key v t) userId key t = some v ∧
    getCachedData (setCachedData c userId key v t) userId key now = none ∧
    lookupEntry (setCachedData c userId key v t) userId key = some ⟨v, t⟩ ∧
    getCachedData (setCachedData (setCachedData c userId key v t) userId key w now)
      userId key now = some w := by
  refine ⟨?_, ?_, ?_, ?_⟩
  · simp [getCachedData, setCachedData, lookupEntry, CACHE_TTL]
  · have hexp' : (300000 : Int) ≤ now - t := by simpa [CACHE_TTL] using hexp
    simp [getCachedData, setCachedData, lookupEntry, CACHE_TTL]
    omega
  · simp [setCachedData, lookupEntry]
  · simp [getCachedData, setCachedData, lookupEntry, CACHE_TTL]

/-- C4 witness: concrete instance at `t = 0`, `now = 300000` (exactly the
TTL), value `7` superseded by `9`. -/
theorem c4_cache_ttl_witness :
    getCachedData (setCachedData ([] : Cache Nat) "alice" "repositories" 7 0)
      "alice" "repositories" 0 = some 7 ∧
    getCachedData (setCachedData ([] : Cache Nat) "alice" "repositories" 7 0)
      "alice" "repositories" 300000 = none ∧
    lookupEntry (setCachedData ([] : Cache Nat) "alice" "repositories" 7 0)
      "alice" "repositories" = some ⟨7, 0⟩ ∧
    getCachedData
      (setCachedData (setCachedData ([] : Cache Nat) "alice" "repositories" 7 0)
        "alice" "repositories" 9 300000)
      "alice" "repositories" 300000 = some 9 :=
  c4_cache_ttl [] "alice" "repositories" 7 9 0 300000 (by decide)

/-- C6: the cache is keyed by the `(session, key)` pair, so a `set` under a
different session never changes what another session's `get` observes. -/
theorem c6_session_isolation {α : Type} (c : Cache α) (u u' k k' : String)
    (v : α) (t now : Int) (hne : u ≠ u') :
    getCachedData (setCachedData c u' k' v t) u k now = getCachedData c u k now := by
  simp only [getCachedData, setCachedData, lookupEntry]
  rw [if_neg (fun h => hne h.1.symm)]

/-- C6 witness: a write under `"bob"` leaves `"alice"`'s read unchanged,
even on the very same key. -/
theorem c6_session_isolation_witness :
    getCachedData (setCachedData ([] : Cache Nat) "bob" "repositories" 7 0)
      "alice" "repositories" 0 =
      getCachedData ([] : Cache Nat) "alice" "repositories" 0 :=
  c6_session_isolation [] "alice" "bob" "repositories" "repositories" 7 0 0
    (by decide)

/-- When the statuses call succeeds, the per-deployment assembly succeeds,
whatever the release lookup did. -/
theorem assembleDeployment_ok_of_statuses (f : DeploymentFetch) (s : List StatusEntry)
    (hs : f.statuses = .ok s) : ∃ d, assembleDeployment f = .ok d := by
  rw [assembleDeployment, hs]
  exact ⟨_, rfl⟩

/-- A page assembles whenever every fetch on it has a successful statuses
call. -/
theorem assemblePage_ok (fs : List DeploymentFetch)
    (h : ∀ f ∈ fs, ∃ s, f.statuses = Except.ok s) :
    ∃ ds, assemblePage fs = .ok ds := by
  induction fs with
  | nil => exact ⟨[], rfl⟩
  | cons f fs ih =>
    obtain ⟨s, hs⟩ := h f (by simp)
    obtain ⟨d, hd⟩ := assembleDeployment_ok_of_statuses f s hs
    obtain ⟨ds, hds⟩ := ih (fun g hg => h g (by simp [hg]))
    exact ⟨d :: ds, by rw [assemblePage, hd, hds]⟩

/-- All pages assemble whenever every fetch has a successful statuses
call. -/
theorem assemblePages_ok (pages : List (List DeploymentFetch))
    (h : ∀ f ∈ List.flatten pages, ∃ s, f.statuses = Except.ok s) :
    ∃ ds, assemblePages pages = .ok ds := by
  induction pages with
  | nil => exact ⟨[], rfl⟩
  | cons page rest ih =>
    obtain ⟨ds, hds⟩ := assemblePage_ok page (fun f hf => h f (by simp [hf]))
    obtain ⟨more, hmore⟩ := ih (fun f hf => h f (by simp [hf]))
    exact ⟨ds ++ more, by rw [assemblePages, hds, hmore]⟩

/-- C2: an assembled deployment's status string is never empty, and an empty
upstream status history yields the literal `"unknown"`. -/
theorem c2_status_default_unknown (f : DeploymentFetch) (d : Deployment)
    (h : assembleDeployment f = .ok d) :
    d.status ≠ "" ∧ (f.statuses = .ok [] → d.status = "unknown") := by
  cases hs : f.statuses with
  | error e => rw [assembleDeployment, hs] at h; cases h
  | ok statusData =>
    rw [assembleDeployment, hs] at h
    have hd := (Except.ok.injEq _ _).mp h
    subst hd
    constructor
    · cases statusData with
      | nil => simp [jsOrElse]
      | cons s rest =>
        by_cases hstate : s.state = "" <;> simp [jsOrElse, hstate]
    · intro hempty
      have hnil := (Except.ok.injEq _ _).mp hempty
      subst hnil
      simp [jsOrElse]

/-- C2 witness: the fetch with an empty status history assembles to a
deployment whose status is the literal `"unknown"`. -/
theorem c2_status_default_unknown_witness :
    exDeployNoStatus.status ≠ "" ∧
      (exFetchNoStatus.statuses = .ok [] → exDeployNoStatus.status = "unknown") :=
  c2_status_default_unknown exFetchNoStatus exDeployNoStatus (by rfl)

/-- C3: as long as every statuses call succeeds, the whole aggregation
succeeds — release-lookup failures are absorbed — and any fetch whose
release lookup failed assembles with an empty `releaseTag`. -/
theorem c3_release_failure_tolerated (getTime : String → Int)
    (pages : List (List DeploymentFetch)) (f : DeploymentFetch) (e : ApiError)
    (hstat : ∀ g ∈ List.flatten pages, ∃ s, g.statuses = Except.ok s)
    (hf : f ∈ List.flatten pages) (hrel : f.release = .error e) :
    (getDeploymentsResult getTime (.ok pages)).isOk = true ∧
      Except.map Deployment.releaseTag (assembleDeployment f) = .ok "" := by
  constructor
  · obtain ⟨ds, hds⟩ := assemblePages_ok pages hstat
    rw [getDeploymentsResult, hds]
    rfl
  · obtain ⟨s, hs⟩ := hstat f hf
    rw [assembleDeployment, hs, hrel]
    rfl

/-- C3 witness: in the concrete two-deployment `prod` scenario both release
lookups fail with 404, yet the aggregation succeeds and the first fetch
assembles with `releaseTag = ""`. -/
theorem c3_release_failure_tolerated_witness :
    (getDeploymentsResult exGt (.ok exPagesProd)).isOk = true ∧
      Except.map Deployment.releaseTag (assembleDeployment exFetchProd1) = .ok "" :=
  c3_release_failure_tolerated exGt exPagesProd exFetchProd1 exErr404
    (by
      intro g hg
      simp only [exPagesProd, List.flatten, List.append_nil, List.mem_cons,
        List.mem_singleton, List.not_mem_nil, or_false] at hg
      rcases hg with rfl | rfl
      · exact ⟨_, rfl⟩
      · exact ⟨_, rfl⟩)
    (by simp [exPagesProd, List.flatten])
    (by rfl)

/-- Without a registered client, `getRepositories` fails before touching
anything. -/
theorem getRepositories_uninit (st : OpState) (now : Int) (userId : String)
    (up : Except ApiError (List (List RawRepo))) (h : userId ∉ st.registry) :
    getRepositories st now userId up = (.error .uninitialized, st) := by
  simp [getRepositories, ensureOctokit, h]

/-- Without a registered client, `getDeployments` fails before touching
anything. -/
theorem getDeployments_uninit (st : OpState) (now : Int) (getTime : String → Int)
    (userId full_name : String) (pagesE : Except ApiError (List (List DeploymentFetch)))
    (h : userId ∉ st.registry) :
    getDeployments st now getTime userId full_name pagesE = (.error .uninitialized, st) := by
  simp [getDeployments, ensureOctokit, h]

/-- Without a registered client, `getEnvironments` fails before touching
anything. -/
theorem getEnvironments_uninit (st : OpState) (now : Int) (userId full_name : String)
    (up : Except ApiError EnvironmentsData) (h : userId ∉ st.registry) :
    getEnvironments st now userId full_name up = (.error .uninitialized, st) := by
  simp [getEnvironments, ensureOctokit, h]

/-- On a 401 the error handler evicts the client and the stored token and
reports `AUTH_REQUIRED`. -/
theorem handleApiError_401 (e : ApiError) (userId : String) (st : OpState)
    (h : e.status = some 401) :
    handleApiError e userId st =
      (.authRequired,
        { st with
          localTokens := st.localTokens.filter (fun p => p.1 ≠ "github_token-" ++ userId)
          registry := st.registry.filter (fun u => u ≠ userId) }) := by
  rw [handleApiError, h]
  simp

/-- Filtering a user id out of the registry removes its membership. -/
theorem notMem_filter_self (l : List String) (u : String) :
    u ∉ l.filter (fun x => x ≠ u) := by
  simp [List.mem_filter]

/-- The upstream-error path of `getRepositories` routes through
`handleApiError`. -/
theorem getRepositories_error (st : OpState) (now : Int) (userId : String)
    (e : ApiError) (hreg : userId ∈ st.registry)
    (hmiss : getCachedData st.reposCache userId "repositories" now = none) :
    getRepositories st now userId (.error e) =
      (.error (handleApiError e userId st).1, (handleApiError e userId st).2) := by
  simp [getRepositories, ensureOctokit, hreg, hmiss]

/-- The error path of `getDeployments` (pagination or assembly failure)
routes through `handleApiError`. -/
theorem getDeployments_error (st : OpState) (now : Int) (getTime : String → Int)
    (userId full_name : String) (pagesE : Except ApiError (List (List DeploymentFetch)))
    (e : ApiError) (hreg : userId ∈ st.registry)
    (hmiss : getCachedData st.deploymentsCache userId ("deployments-" ++ full_name) now = none)
    (hres : getDeploymentsResult getTime pagesE = .error e) :
    getDeployments st now getTime userId full_name pagesE =
      (.error (handleApiError e userId st).1, (handleApiError e userId st).2) := by
  simp [getDeployments, ensureOctokit, hreg, hmiss, hres]

/-- The upstream-error path of `getEnvironments` routes through
`handleApiError`. -/
theorem getEnvironments_error (st : OpState) (now : Int) (userId full_name : String)
    (e : ApiError) (hreg : userId ∈ st.registry)
    (hmiss : getCachedData st.environmentsCache userId ("environments-" ++ full_name) now = none) :
    getEnvironments st now userId full_name (.error e) =
      (.error (handleApiError e userId st).1, (handleApiError e userId st).2) := by
  simp [getEnvironments, ensureOctokit, hreg, hmiss]

/-- C9: an upstream environments response with the `environments` field
absent yields the empty sequence, not an error. -/
theorem c9_absent_environments_empty (st : OpState) (now : Int)
    (userId full_name : String)
    (hreg : userId ∈ st.registry)
    (hmiss : getCachedData st.environmentsCache userId ("environments-" ++ full_name) now = none) :
    (getEnvironments st now userId full_name (.ok ⟨none⟩)).1 = .ok [] := by
  simp [getEnvironments, ensureOctokit, hreg, hmiss]

/-- C9 witness: concrete call for `"alice"` on `"acme/widgets"` with an
absent upstream `environments` field. -/
theorem c9_absent_environments_empty_witness :
    (getEnvironments exStateInit 0 "alice" "acme/widgets" (.ok ⟨none⟩)).1 = .ok [] :=
  c9_absent_environments_empty exStateInit 0 "alice" "acme/widgets" (by decide) rfl

/-- C10: every operation checks the client registry before the cache, so a
session with no client fails with the uninitialized error whatever the
cache holds. -/
theorem c10_registry_before_cache (st : OpState) (now : Int) (getTime : String → Int)
    (userId full_name : String)
    (reposUp : Except ApiError (List (List RawRepo)))
    (pagesE : Except ApiError (List (List DeploymentFetch)))
    (envUp : Except ApiError EnvironmentsData)
    (hreg : userId ∉ st.registry) :
    (getRepositories st now userId reposUp).1 = .error .uninitialized ∧
    (getDeployments st now getTime userId full_name pagesE).1 = .error .uninitialized ∧
    (getEnvironments st now userId full_name envUp).1 = .error .uninitialized := by
  refine ⟨?_, ?_, ?_⟩
  · rw [getRepositories_uninit st now userId reposUp hreg]
  · rw [getDeployments_uninit st now getTime userId full_name pagesE hreg]
  · rw [getEnvironments_uninit st now userId full_name envUp hreg]

/-- C10 witness: `exStateNoClient` carries fresh, unexpired cache entries
for every key the calls would use, yet all three operations fail
uninitialized; the final conjunct checks the repositories entry really is a
live hit at the same instant. -/
theorem c10_registry_before_cache_witness :
    (getRepositories exStateNoClient 0 "alice" (.ok [])).1 = .error .uninitialized ∧
    (getDeployments exStateNoClient 0 exGt "alice" "acme/widgets" (.ok [])).1 =
      .error .uninitialized ∧
    (getEnvironments exStateNoClient 0 "alice" "acme/widgets" (.ok ⟨none⟩)).1 =
      .error .uninitialized ∧
    getCachedData exStateNoClient.reposCache "alice" "repositories" 0 = some [exRepoOption] := by
  have h := c10_registry_before_cache exStateNoClient 0 exGt "alice" "acme/widgets"
    (.ok []) (.ok []) (.ok ⟨none⟩) (by decide)
  exact ⟨h.1, h.2.1, h.2.2, rfl⟩

/-- C8: the error taxonomy of `handleApiError` — 401 becomes
`AUTH_REQUIRED`, 403 with the rate-limit message becomes
`RATE_LIMIT_EXCEEDED`, everything else is rethrown unchanged — and each
listing operation surfaces exactly that classification on its upstream
failure. -/
theorem c8_error_taxonomy (e : ApiError) (userId full_name : String) (st : OpState)
    (now : Int) (getTime : String → Int)
    (hreg : userId ∈ st.registry)
    (hmissR : getCachedData st.reposCache userId "repositories" now = none)
    (hmissD : getCachedData st.deploymentsCache userId ("deployments-" ++ full_name) now = none)
    (hmissE : getCachedData st.environmentsCache userId ("environments-" ++ full_name) now = none) :
    (e.status = some 401 → (handleApiError e userId st).1 = .authRequired) ∧
    (e.status = some 403 → strContainsSub e.message "API rate limit exceeded" = true →
        (handleApiError e userId st).1 = .rateLimitExceeded) ∧
    ((∀ s : Int, e.status = some s →
        s ≠ 401 ∧ (s = 403 → strContainsSub e.message "API rate limit exceeded" = false)) →
      (handleApiError e userId st).1 = .upstream e) ∧
    (getRepositories st now userId (.error e)).1 = .error (handleApiError e userId st).1 ∧
    (getDeployments st now getTime userId full_name (.error e)).1 =
      .error (handleApiError e userId st).1 ∧
    (getEnvironments st now userId full_name (.error e)).1 =
      .error (handleApiError e userId st).1 := by
  refine ⟨?_, ?_, ?_, ?_, ?_, ?_⟩
  · intro h
    rw [handleApiError_401 e userId st h]
  · intro h hmsg
    simp [handleApiError, h, hmsg]
  · intro h
    cases hst : e.status with
    | none => simp [handleApiError, hst]
    | some s =>
      obtain ⟨h1, h2⟩ := h s hst
      by_cases h403 : s = 403
      · subst h403
        simp [handleApiError, hst, h2 rfl]
      · simp [handleApiError, hst, h1, h403]
  · rw [getRepositories_error st now userId e hreg hmissR]
  · rw [getDeployments_error st now getTime userId full_name (.error e) e hreg hmissD rfl]
  · rw [getEnvironments_error st now userId full_name e hreg hmissE]

/-- C8 witness: the three concrete classifications on a 401, a 403 with the
rate-limit message, and a 500, plus the lifting to a concrete
`getEnvironments` failure. -/
theorem c8_error_taxonomy_witness :
    (handleApiError exErr401 "alice" exStateInit).1 = .authRequired ∧
    (handleApiError exErr403 "alice" exStateInit).1 = .rateLimitExceeded ∧
    (handleApiError exErr500 "alice" exStateInit).1 = .upstream exErr500 ∧
    (getEnvironments exStateInit 0 "alice" "acme/widgets" (.error exErr403)).1 =
      .error (handleApiError exErr403 "alice" exStateInit).1 := by
  refine ⟨?_, ?_, ?_, ?_⟩
  · exact (c8_error_taxonomy exErr401 "alice" "acme/widgets" exStateInit 0 exGt
      (by decide) rfl rfl rfl).1 rfl
  · exact (c8_error_taxonomy exErr403 "alice" "acme/widgets" exStateInit 0 exGt
      (by decide) rfl rfl rfl).2.1 rfl (by decide)
  · exact (c8_error_taxonomy exErr500 "alice" "acme/widgets" exStateInit 0 exGt
      (by decide) rfl rfl rfl).2.2.1
      (by
        intro s hs
        have h500 : (500 : Int) = s := by simpa [exErr500] using hs
        exact ⟨fun h401 => absurd (h500.trans h401) (by decide),
          fun h403 => absurd (h500.trans h403) (by decide)⟩)
  · exact (c8_error_taxonomy exErr403 "alice" "acme/widgets" exStateInit 0 exGt
      (by decide) rfl rfl rfl).2.2.2.2.2

/-- C5: a 401 from the upstream makes each operation fail with
`AUTH_REQUIRED` and evicts the session's client, so the same operations
re-run on the resulting state — without re-initializing — all fail
uninitialized. -/
theorem c5_auth_eviction (st : OpState) (now : Int) (getTime : String → Int)
    (userId full_name : String) (e : ApiError)
    (pagesE : Except ApiError (List (List DeploymentFetch)))
    (hreg : userId ∈ st.registry) (h401 : e.status = some 401)
    (hmissR : getCachedData st.reposCache userId "repositories" now = none)
    (hmissD : getCachedData st.deploymentsCache userId ("deployments-" ++ full_name) now = none)
    (hmissE : getCachedData st.environmentsCache userId ("environments-" ++ full_name) now = none)
    (hpages : getDeploymentsResult getTime pagesE = .error e) :
    ((getRepositories st now userId (.error e)).1 = .error .authRequired ∧
      userId ∉ (getRepositories st now userId (.error e)).2.registry) ∧
    ((getDeployments st now getTime userId full_name pagesE).1 = .error .authRequired ∧
      userId ∉ (getDeployments st now getTime userId full_name pagesE).2.registry) ∧
    ((getEnvironments st now userId full_name (.error e)).1 = .error .authRequired ∧
      userId ∉ (getEnvironments st now userId full_name (.error e)).2.registry) ∧
    (getRepositories (getEnvironments st now userId full_name (.error e)).2
        now userId (.error e)).1 = .error .uninitialized ∧
    (getDeployments (getEnvironments st now userId full_name (.error e)).2
        now getTime userId full_name pagesE).1 = .error .uninitialized ∧
    (getEnvironments (getEnvironments st now userId full_name (.error e)).2
        now userId full_name (.error e)).1 = .error .uninitialized := by
  have hh := handleApiError_401 e userId st h401
  have hR := getRepositories_error st now userId e hreg hmissR
  have hD := getDeployments_error st now getTime userId full_name pagesE e hreg hmissD hpages
  have hE := getEnvironments_error st now userId full_name e hreg hmissE
  have hnot : userId ∉ (getEnvironments st now userId full_name (.error e)).2.registry := by
    rw [hE, hh]
    exact notMem_filter_self st.registry userId
  refine ⟨⟨?_, ?_⟩, ⟨?_, ?_⟩, ⟨?_, ?_⟩, ?_, ?_, ?_⟩
  · rw [hR, hh]
  · rw [hR, hh]; exact notMem_filter_self st.registry userId
  · rw [hD, hh]
  · rw [hD, hh]; exact notMem_filter_self st.registry userId
  · rw [hE, hh]
  · exact hnot
  · rw [getRepositories_uninit _ now userId (.error e) hnot]
  · rw [getDeployments_uninit _ now getTime userId full_name pagesE hnot]
  · rw [getEnvironments_uninit _ now userId full_name (.error e) hnot]

/-- C5 witness: a concrete 401 against `"alice"`'s freshly initialized
state; every operation reports `AUTH_REQUIRED`, the client is gone, and the
re-runs fail uninitialized. -/
theorem c5_auth_eviction_witness :
    ((getRepositories exStateInit 0 "alice" (.error exErr401)).1 = .error .authRequired ∧
      "alice" ∉ (getRepositories exStateInit 0 "alice" (.error exErr401)).2.registry) ∧
    ((getDeployments exStateInit 0 exGt "alice" "acme/widgets" (.error exErr401)).1 =
        .error .authRequired ∧
      "alice" ∉ (getDeployments exStateInit 0 exGt "alice" "acme/widgets"
          (.error exErr401)).2.registry) ∧
    ((getEnvironments exStateInit 0 "alice" "acme/widgets" (.error exErr401)).1 =
        .error .authRequired ∧
      "alice" ∉ (getEnvironments exStateInit 0 "alice" "acme/widgets"
          (.error exErr401)).2.registry) ∧
    (getRepositories (getEnvironments exStateInit 0 "alice" "acme/widgets"
          (.error exErr401)).2 0 "alice" (.error exErr401)).1 = .error .uninitialized ∧
    (getDeployments (getEnvironments exStateInit 0 "alice" "acme/widgets"
          (.error exErr401)).2 0 exGt "alice" "acme/widgets" (.error exErr401)).1 =
      .error .uninitialized ∧
    (getEnvironments (getEnvironments exStateInit 0 "alice" "acme/widgets"
          (.error exErr401)).2 0 "alice" "acme/widgets" (.error exErr401)).1 =
      .error .uninitialized :=
  c5_auth_eviction exStateInit 0 exGt "alice" "acme/widgets" exErr401 (.error exErr401)
    (by decide) rfl rfl rfl rfl rfl

/-- Inserting into a non-increasing list keeps it non-increasing. -/
theorem isSorted_insertByCreatedDesc (getTime : String → Int) (d : Deployment)
    (l : List Deployment) (h : isSortedByCreatedDesc getTime l = true) :
    isSortedByCreatedDesc getTime (insertByCreatedDesc getTime d l) = true := by
  induction l with
  | nil => rfl
  | cons e es ih =>
    rw [isSortedByCreatedDesc, Bool.and_eq_true] at h
    obtain ⟨hhead, htail⟩ := h
    by_cases hc : getTime e.created_at ≤ getTime d.created_at
    · rw [insertByCreatedDesc, if_pos hc, isSortedByCreatedDesc, isSortedByCreatedDesc,
        Bool.and_eq_true, Bool.and_eq_true]
      exact ⟨by simpa [headLeOf] using hc, hhead, htail⟩
    · rw [insertByCreatedDesc, if_neg hc, isSortedByCreatedDesc, Bool.and_eq_true]
      refine ⟨?_, ih htail⟩
      cases es with
      | nil =>
        simp [insertByCreatedDesc, headLeOf]
        omega
      | cons x xs =>
        by_cases hcx : getTime x.created_at ≤ getTime d.created_at
        · rw [insertByCreatedDesc, if_pos hcx]
          simp [headLeOf]
          omega
        · rw [insertByCreatedDesc, if_neg hcx]
          simpa [headLeOf] using hhead

/-- The stable descending sort really sorts. -/
theorem isSorted_sortByCreatedDesc (getTime : String → Int) (l : List Deployment) :
    isSortedByCreatedDesc getTime (sortByCreatedDesc getTime l) = true := by
  induction l with
  | nil => rfl
  | cons d ds ih =>
    rw [sortByCreatedDesc]
    exact isSorted_insertByCreatedDesc getTime d _ ih

/-- C1: every group of a successful aggregation is sorted by creation time,
newest first, and the aggregation is a function of its input — two runs on
identical input return identical results, so ties can never be ordered
differently across runs. -/
theorem c1_groups_sorted_desc (getTime : String → Int)
    (pagesE : Except ApiError (List (List DeploymentFetch)))
    (res res' : List GroupedDeployment)
    (h : getDeploymentsResult getTime pagesE = .ok res)
    (h' : getDeploymentsResult getTime pagesE = .ok res') :
    allGroupsSortedDesc getTime res = true ∧ res' = res := by
  refine ⟨?_, by rw [h] at h'; exact ((Except.ok.injEq _ _).mp h').symm⟩
  cases pagesE with
  | error e => rw [getDeploymentsResult] at h; cases h
  | ok pages =>
    rw [getDeploymentsResult] at h
    cases ha : assemblePages pages with
    | error e => rw [ha] at h; cases h
    | ok ds =>
      rw [ha] at h
      have hres := (Except.ok.injEq _ _).mp h
      subst hres
      rw [groupAndSort, allGroupsSortedDesc, List.all_eq_true]
      intro g hg
      obtain ⟨p, hp, hpe⟩ := List.mem_map.mp hg
      subst hpe
      exact isSorted_sortByCreatedDesc getTime p.2

/-- C1 witness: the concrete `prod` scenario sorts `[id 1, id 2]` into
`[id 2, id 1]`, and re-running returns the same result. -/
theorem c1_groups_sorted_desc_witness :
    allGroupsSortedDesc exGt exResProd = true ∧ exResProd = exResProd :=
  c1_groups_sorted_desc exGt (.ok exPagesProd) exResProd exResProd (by rfl) (by rfl)

/-- The keys of the grouping object after adding one deployment: unchanged
when its environment already has a property, otherwise extended at the
end. -/
theorem mapfst_addToGroup (d : Deployment) (g : List (String × List Deployment)) :
    (addToGroup d g).map Prod.fst =
      if d.environment ∈ g.map Prod.fst then g.map Prod.fst
      else g.map Prod.fst ++ [d.environment] := by
  induction g with
  | nil => simp [addToGroup]
  | cons p rest ih =>
    obtain ⟨k, ds⟩ := p
    by_cases hk : k = d.environment
    · subst hk
      rw [addToGroup, if_pos rfl]
      simp
    · rw [addToGroup, if_neg hk]
      simp only [List.map_cons]
      rw [ih]
      by_cases hm : d.environment ∈ rest.map Prod.fst
      · rw [if_pos hm, if_pos (List.mem_cons.mpr (Or.inr hm))]
      · rw [if_neg hm, if_neg (fun hcon => by
          rcases List.mem_cons.mp hcon with h1 | h2
          · exact hk h1.symm
          · exact hm h2)]
        simp

/-- `firstAppearances` only depends on the membership of the seen set. -/
theorem firstAppearances_congr (l : List String) :
    ∀ s₁ s₂ : List String, (∀ x, x ∈ s₁ ↔ x ∈ s₂) →
      firstAppearances s₁ l = firstAppearances s₂ l := by
  induction l with
  | nil => intro s₁ s₂ _; rfl
  | cons e es ih =>
    intro s₁ s₂ hiff
    by_cases he : e ∈ s₁
    · rw [firstAppearances, firstAppearances, if_pos he, if_pos ((hiff e).mp he)]
      exact ih s₁ s₂ hiff
    · rw [firstAppearances, firstAppearances, if_neg he,
        if_neg (fun h => he ((hiff e).mpr h))]
      exact congrArg (List.cons e)
        (ih (e :: s₁) (e :: s₂) (fun x => by simp [List.mem_cons, hiff x]))

/-- Folding deployments into the grouping object creates properties in
first-appearance order of their environments. -/
theorem mapfst_groupFold (l : List Deployment) :
    ∀ acc : List (String × List Deployment),
      (l.foldl (fun g d => addToGroup d g) acc).map Prod.fst =
        acc.map Prod.fst ++
          firstAppearances (acc.map Prod.fst) (l.map Deployment.environment) := by
  induction l with
  | nil => intro acc; simp [firstAppearances]
  | cons d l ih =>
    intro acc
    rw [List.foldl_cons, ih (addToGroup d acc), mapfst_addToGroup]
    by_cases hm : d.environment ∈ acc.map Prod.fst
    · rw [if_pos hm]
      simp only [List.map_cons]
      rw [firstAppearances, if_pos hm]
    · rw [if_neg hm]
      simp only [List.map_cons]
      rw [firstAppearances, if_neg hm,
        firstAppearances_congr (l.map Deployment.environment)
          (List.map Prod.fst acc ++ [d.environment])
          (d.environment :: List.map Prod.fst acc)
          (fun x => by simp [List.mem_append, List.mem_cons, or_comm])]
      simp

/-- The grouping object's property-creation order is the first-appearance
order of the environments. -/
theorem mapfst_groupByEnvironment (ds : List Deployment) :
    (groupByEnvironment ds).map Prod.fst =
      firstAppearances [] (ds.map Deployment.environment) := by
  simpa [groupByEnvironment] using mapfst_groupFold ds []

/-- Keys of the array-index-filtered entries are the array-index-filtered
keys. -/
theorem mapfst_filter_idx (g : List (String × List Deployment)) :
    (g.filter (fun p => isArrayIndex p.1)).map Prod.fst =
      (g.map Prod.fst).filter (fun k => isArrayIndex k) := by
  induction g with
  | nil => rfl
  | cons p rest ih =>
    by_cases hq : isArrayIndex p.1 = true
    · simp [List.filter_cons, hq, ih]
    · simp [List.filter_cons, hq, ih]

/-- Keys of the non-array-index-filtered entries are the
non-array-index-filtered keys. -/
theorem mapfst_filter_nonidx (g : List (String × List Deployment)) :
    (g.filter (fun p => !isArrayIndex p.1)).map Prod.fst =
      (g.map Prod.fst).filter (fun k => !isArrayIndex k) := by
  induction g with
  | nil => rfl
  | cons p rest ih =>
    by_cases hq : isArrayIndex p.1 = true
    · simp [List.filter_cons, hq, ih]
    · simp [List.filter_cons, hq, ih]

/-- Numeric insertion commutes with taking keys. -/
theorem mapfst_insertEntryByNum (p : String × List Deployment)
    (g : List (String × List Deployment)) :
    (insertEntryByNum p g).map Prod.fst = insertKeyByNum p.1 (g.map Prod.fst) := by
  induction g with
  | nil => rfl
  | cons q qs ih =>
    simp only [List.map_cons]
    rw [insertEntryByNum, insertKeyByNum]
    by_cases hlt : keyNum p.1 < keyNum q.1
    · rw [if_pos hlt, if_pos hlt]
      simp
    · rw [if_neg hlt, if_neg hlt]
      simp [ih]

/-- Numeric sorting commutes with taking keys. -/
theorem mapfst_sortEntriesByNum (g : List (String × List Deployment)) :
    (sortEntriesByNum g).map Prod.fst = sortKeysByNum (g.map Prod.fst) := by
  induction g with
  | nil => rfl
  | cons p ps ih =>
    simp only [List.map_cons]
    rw [sortEntriesByNum, sortKeysByNum, ← ih, mapfst_insertEntryByNum]

/-- `Object.entries` lists keys in ECMAScript own-property order. -/
theorem mapfst_objectEntries (g : List (String × List Deployment)) :
    (objectEntries g).map Prod.fst = jsObjectKeys (g.map Prod.fst) := by
  rw [objectEntries, jsObjectKeys, List.map_append, mapfst_sortEntriesByNum,
    mapfst_filter_idx, mapfst_filter_nonidx]

/-- Assembly preserves the deployment's environment. -/
theorem env_assembleDeployment (f : DeploymentFetch) (d : Deployment)
    (h : assembleDeployment f = .ok d) : d.environment = f.deployment.environment := by
  cases hs : f.statuses with
  | error e => rw [assembleDeployment, hs] at h; cases h
  | ok s =>
    rw [assembleDeployment, hs] at h
    have hd := (Except.ok.injEq _ _).mp h
    rw [← hd]

/-- A successfully assembled page has the environments of its fetches, in
order. -/
theorem envs_assemblePage (fs : List DeploymentFetch) :
    ∀ ds, assemblePage fs = .ok ds →
      ds.map Deployment.environment = fs.map (fun f => f.deployment.environment) := by
  induction fs with
  | nil =>
    intro ds h
    have hds := (Except.ok.injEq _ _).mp h
    rw [← hds]
    rfl
  | cons f fs ih =>
    intro ds h
    cases hd : assembleDeployment f with
    | error e => simp [assemblePage, hd] at h
    | ok d =>
      cases hp : assemblePage fs with
      | error e => simp [assemblePage, hd, hp] at h
      | ok ds1 =>
        simp only [assemblePage, hd, hp] at h
        have hds := (Except.ok.injEq _ _).mp h
        rw [← hds, List.map_cons, List.map_cons,
          env_assembleDeployment f d hd, ih ds1 hp]

/-- A successfully assembled run has the environments of the flattened
pages, in order. -/
theorem envs_assemblePages (pages : List (List DeploymentFetch)) :
    ∀ ds, assemblePages pages = .ok ds →
      ds.map Deployment.environment =
        (List.flatten pages).map (fun f => f.deployment.environment) := by
  induction pages with
  | nil =>
    intro ds h
    have hds := (Except.ok.injEq _ _).mp h
    rw [← hds]
    rfl
  | cons page rest ih =>
    intro ds h
    cases hp : assemblePage page with
    | error e => simp [assemblePages, hp] at h
    | ok ds1 =>
      cases hr : assemblePages rest with
      | error e => simp [assemblePages, hp, hr] at h
      | ok ds2 =>
        simp only [assemblePages, hp, hr] at h
        have hds := (Except.ok.injEq _ _).mp h
        rw [← hds, List.flatten_cons, List.map_append, List.map_append,
          envs_assemblePage page ds1 hp, ih ds2 hr]

/-- C7 (amended): the environments of a successful aggregation appear in
ECMAScript own-property order of their first appearances — array-index
names first, ascending numerically, then the rest in first-appearance
order. -/
theorem c7_env_order_js_object_keys (getTime : String → Int)
    (pages : List (List DeploymentFetch)) (res : List GroupedDeployment)
    (h : getDeploymentsResult getTime (.ok pages) = .ok res) :
    res.map GroupedDeployment.environment =
      jsObjectKeys (firstAppearances []
        ((List.flatten pages).map (fun f => f.deployment.environment))) := by
  rw [getDeploymentsResult] at h
  cases ha : assemblePages pages with
  | error e => rw [ha] at h; cases h
  | ok ds =>
    rw [ha] at h
    have hres := (Except.ok.injEq _ _).mp h
    subst hres
    rw [groupAndSort, List.map_map]
    have hcomp : (GroupedDeployment.environment ∘ fun p =>
        ({ environment := p.1, deployments := sortByCreatedDesc getTime p.2 } :
          GroupedDeployment)) = Prod.fst := rfl
    rw [hcomp, mapfst_objectEntries, mapfst_groupByEnvironment,
      envs_assemblePages pages ds ha]

/-- C7 counterexample: with environments appearing in page order
`["b", "0"]`, the code returns the `"0"` group first — the returned order
is `["0", "b"]`, not the insertion order of first appearance. -/
theorem c7_insertion_order_counterexample :
    getDeploymentsResult exGt (.ok exPagesIdx) = .ok exResIdx ∧
    exResIdx.map GroupedDeployment.environment = ["0", "b"] ∧
    firstAppearances []
        ((List.flatten exPagesIdx).map (fun f => f.deployment.environment)) =
      ["b", "0"] ∧
    (["0", "b"] : List String) ≠ ["b", "0"] :=
  ⟨rfl, rfl, rfl, by decide⟩

/-- C7 amended witness: on the concrete array-index scenario the returned
environment order equals the ECMAScript own-property order of the first
appearances. -/
theorem c7_env_order_js_object_keys_witness :
    exResIdx.map GroupedDeployment.environment =
      jsObjectKeys (firstAppearances []
        ((List.flatten exPagesIdx).map (fun f => f.deployment.environment))) :=
  c7_env_order_js_object_keys exGt exPagesIdx exResIdx (by rfl)

end GithubDashboard
